import Mathlib

set_option maxRecDepth 100000

/-!
Verification development for the stock-prediction service of this repository:
`feature_engineering.py` (`FeatureEngineer`), `predictive_model.py`
(`StockPredictiveModel`) and `model_manager.py` (`ModelManager`).

Modelling conventions, used throughout:

* Python floats are modelled by `Q`, exact fractions `n / d` kept in normalised
  form (gcd-reduced, denominator positive).  Floating-point rounding is outside
  the scope of every claim treated here; no statement below depends on rounding.
* A pandas/numpy missing value (`NaN`) is modelled as `none : Option Q`;
  a division whose denominator is zero (which in float arithmetic produces
  `inf` or `NaN`, both of which are rejected by scikit-learn's input check
  exactly as `NaN` is) is also modelled as `none`.
* `float.sqrt` and `np.log1p` are irrational-valued, hence not representable
  in exact fractions; they are modelled by `qSqrt` (exact on perfect squares,
  integer-square-root approximation otherwise) and `log1pCell` (identity on
  the defined domain).  No theorem below consults the numeric value either
  function returns; only definedness (`some` versus `none`) propagates into
  any statement.
* Exceptions are modelled with `Except String`; the string carries the Python
  exception rendering.  A fallible external call (scikit-learn / optuna /
  mlflow / shap fitting, joblib / json disk writes) is an oracle parameter
  (`FitEnv`, `IoEnv`); the deterministic prefix of such a call (the
  `TimeSeriesSplit` sample-count check `_train_model` runs before any fit)
  is embedded directly, ahead of the oracle, and the theorems hold for every
  behaviour of the oracle.
* `datetime.now()` is passed explicitly (`now`, measured in days, fractional),
  and `timedelta.days` is integer floor of the difference in days.
-/

/-- Exact fraction: numerator over (intended positive) denominator.  Every
arithmetic operation below returns the gcd-normalised form, so operation
outputs are canonical representatives. -/
structure Q where
  n : Int
  d : Nat
deriving DecidableEq

/-- Normalise a fraction: divide out the gcd; a zero denominator collapses to
zero (never produced by the guarded operations below). -/
def qNorm (q : Q) : Q :=
  if q.d = 0 then ⟨0, 1⟩
  else
    let g := Nat.gcd q.n.natAbs q.d
    ⟨q.n / (g : Int), q.d / g⟩

def qAdd (a b : Q) : Q := qNorm ⟨a.n * (b.d : Int) + b.n * (a.d : Int), a.d * b.d⟩

def qSub (a b : Q) : Q := qNorm ⟨a.n * (b.d : Int) - b.n * (a.d : Int), a.d * b.d⟩

def qMul (a b : Q) : Q := qNorm ⟨a.n * b.n, a.d * b.d⟩

def qNeg (a : Q) : Q := ⟨-a.n, a.d⟩

/-- Division of exact fractions.  Division by zero yields `0` here; every use
in the pipeline is behind `cellDiv`, which maps a zero denominator to the
missing value instead, so this branch is never consulted. -/
def qDiv (a b : Q) : Q :=
  let s : Int := if b.n < 0 then -1 else 1
  qNorm ⟨s * a.n * (b.d : Int), a.d * b.n.natAbs⟩

/-- Strict order by cross multiplication (the rational order whenever the
denominators are positive, which every operation above preserves). -/
def qLt (a b : Q) : Prop := a.n * (b.d : Int) < b.n * (a.d : Int)

def qLe (a b : Q) : Prop := a.n * (b.d : Int) ≤ b.n * (a.d : Int)

instance (a b : Q) : Decidable (qLt a b) := by unfold qLt; infer_instance

instance (a b : Q) : Decidable (qLe a b) := by unfold qLe; infer_instance

def qMax (a b : Q) : Q := if qLt a b then b else a

def qMin (a b : Q) : Q := if qLt a b then a else b

def qAbs (a : Q) : Q := ⟨a.n.natAbs, a.d⟩

def qOfInt (i : Int) : Q := ⟨i, 1⟩

def qOfNat (n : Nat) : Q := ⟨(n : Int), 1⟩

/-- Newton iteration for the integer square root, with explicit fuel so that
the kernel can evaluate it (the library `Nat.sqrt` is defined by well-founded
recursion, which does not reduce). -/
def sqrtIter : Nat → Nat → Nat → Nat
  | 0, r, _ => r
  | fuel + 1, r, x =>
    let c := (r + x / r) / 2
    if c < r then sqrtIter fuel c x else r

def natSqrtF (x : Nat) : Nat := if x ≤ 1 then x else sqrtIter 200 x x

/-- Modelled stand-in for the float square root: exact on fractions whose
product `n * d` is a perfect square, integer-square-root approximation
otherwise (the true value is irrational there, hence not representable).
No theorem in this development consults the value this returns. -/
def qSqrt (q : Q) : Q :=
  if q.n < 0 then ⟨0, 1⟩
  else qNorm ⟨(natSqrtF (q.n.natAbs * q.d) : Int), q.d⟩

/-- One cell of a pandas column: `none` is `NaN` (or the rejected `inf`, see
the conventions above). -/
abbrev Cell := Option Q

abbrev Series := List Cell

def cellMap (f : Q → Q) : Cell → Cell := Option.map f

def cellMap2 (f : Q → Q → Q) : Cell → Cell → Cell
  | some a, some b => some (f a b)
  | _, _ => none

def cellAdd : Cell → Cell → Cell := cellMap2 qAdd

def cellSub : Cell → Cell → Cell := cellMap2 qSub

def cellMul : Cell → Cell → Cell := cellMap2 qMul

/-- Float division lifted to cells: a missing operand, or a zero denominator
(`inf`/`NaN` in float arithmetic, equally rejected downstream), is missing. -/
def cellDiv : Cell → Cell → Cell
  | some a, some b => if b.n = 0 then none else some (qDiv a b)
  | _, _ => none

def seriesZip (f : Cell → Cell → Cell) (xs ys : Series) : Series := List.zipWith f xs ys

def seriesMap (f : Q → Q) (xs : Series) : Series := xs.map (cellMap f)

def qListSum (l : List Q) : Q := l.foldl qAdd ⟨0, 1⟩

def qListMax : List Q → Q
  | [] => ⟨0, 1⟩
  | x :: xs => xs.foldl qMax x

def qListMin : List Q → Q
  | [] => ⟨0, 1⟩
  | x :: xs => xs.foldl qMin x

def qListMean (l : List Q) : Q := qDiv (qListSum l) (qOfNat l.length)

/-- Population variance (`ddof = 0`), as used by `StandardScaler` and by the
`ta` Bollinger band implementation. -/
def qVarPop (l : List Q) : Q :=
  qDiv (qListSum (l.map (fun x => qMul (qSub x (qListMean l)) (qSub x (qListMean l)))))
    (qOfNat l.length)

/-- Sample standard deviation (`ddof = 1`, the pandas `std` default): missing
for fewer than two observations. -/
def qStdSample (l : List Q) : Cell :=
  if l.length ≤ 1 then none
  else
    some (qSqrt (qDiv
      (qListSum (l.map (fun x => qMul (qSub x (qListMean l)) (qSub x (qListMean l)))))
      (qOfNat (l.length - 1))))

/-- Sliding pass of `rollingApply`: one output cell per full window of `w`
cells, missing unless the window is fully observed. -/
def slideWin (w : Nat) (f : List Q → Cell) : Series → Series
  | [] => []
  | x :: rest =>
    if w ≤ rest.length + 1 then
      (let win := (x :: rest).take w
       if win.all Option.isSome then f (win.filterMap id) else none) :: slideWin w f rest
    else []

/-- pandas `rolling(window)` aggregation with the default
`min_periods = window`: position `i` is defined exactly when the window of the
last `window` cells ending at `i` is complete and fully observed; the first
`window - 1` positions are missing. -/
def rollingApply (w : Nat) (f : List Q → Cell) (xs : Series) : Series :=
  List.replicate (min (w - 1) xs.length) none ++ slideWin w f xs

def rollingMean (w : Nat) (xs : Series) : Series :=
  rollingApply w (fun l => some (qListMean l)) xs

def rollingStd (w : Nat) (xs : Series) : Series := rollingApply w qStdSample xs

def rollingMax (w : Nat) (xs : Series) : Series :=
  rollingApply w (fun l => some (qListMax l)) xs

def rollingMin (w : Nat) (xs : Series) : Series :=
  rollingApply w (fun l => some (qListMin l)) xs

def rollingSum (w : Nat) (xs : Series) : Series :=
  rollingApply w (fun l => some (qListSum l)) xs

/-- pandas `ewm(adjust=False).mean()` recursion after the first observation:
`y_i = a * x_i + (1 - a) * y_(i-1)`; a missing input is reported missing and
leaves the state untouched. -/
def ewmStep (a : Q) (prev : Q) : Series → Series
  | [] => []
  | some x :: rest =>
    let y := qAdd (qMul a x) (qMul (qSub ⟨1, 1⟩ a) prev)
    some y :: ewmStep a y rest
  | none :: rest => none :: ewmStep a prev rest

/-- pandas `ewm(adjust=False).mean()`: the recursion starts at the first
observed value. -/
def ewmMean (a : Q) : Series → Series
  | [] => []
  | none :: rest => none :: ewmMean a rest
  | some x :: rest => some x :: ewmStep a x rest

/-- Mask the first `w - 1` positions, the effect of `min_periods = window` on
the fully observed series this pipeline feeds to `ewm`. -/
def minPeriodsMask (w : Nat) (s : Series) : Series :=
  (s.take (w - 1)).map (fun _ => none) ++ s.drop (w - 1)

/-- `series.shift(k)` for positive `k`: `k` leading missing cells. -/
def shiftPos (k : Nat) (s : Series) : Series :=
  List.replicate (min k s.length) none ++ s.take (s.length - k)

/-- `series.shift(-k)`: drop the first `k`, pad the tail with missing cells. -/
def shiftNeg (k : Nat) (s : Series) : Series :=
  s.drop k ++ List.replicate (min k s.length) none

/-- `series.diff()`: first difference, missing at position 0. -/
def diffSeries (s : Series) : Series := seriesZip cellSub s (shiftPos 1 s)

/-- `series.pct_change(p)`: `x_i / x_(i-p) - 1`. -/
def pctChange (p : Nat) (s : Series) : Series :=
  seriesMap (fun x => qSub x ⟨1, 1⟩) (seriesZip cellDiv s (shiftPos p s))

/-- `fillna(method='ffill')` on one column, tracked by the last observation. -/
def ffillFrom : Cell → Series → Series
  | _, [] => []
  | _, some x :: rest => some x :: ffillFrom (some x) rest
  | last, none :: rest => last :: ffillFrom last rest

def seriesFfill (s : Series) : Series := ffillFrom none s

def seriesBfill (s : Series) : Series := (ffillFrom none s.reverse).reverse

/-- A pandas DataFrame: ordered columns of equal length, addressed by name
(`df['name']` raises `KeyError` for an absent column, and assignment replaces
an existing column in place or appends a new one, preserving order). -/
structure DataFrame where
  cols : List (String × Series)
deriving DecidableEq

def DataFrame.columns (df : DataFrame) : List String := df.cols.map Prod.fst

def DataFrame.height (df : DataFrame) : Nat :=
  match df.cols with
  | [] => 0
  | (_, s) :: _ => s.length

/-- Column read, `df[name]`. -/
def DataFrame.getCol (df : DataFrame) (name : String) : Except String Series :=
  match df.cols.find? (fun p => p.1 == name) with
  | some p => .ok p.2
  | none => .error ("KeyError: " ++ name)

/-- Column assignment, `df[name] = s`. -/
def DataFrame.setCol (df : DataFrame) (name : String) (s : Series) : DataFrame :=
  if df.cols.any (fun p => p.1 == name) then
    ⟨df.cols.map (fun p => if p.1 == name then (name, s) else p)⟩
  else ⟨df.cols ++ [(name, s)]⟩

/-- Helper of `DataFrame.select`: read the named columns in order, stopping
at the first `KeyError`. -/
def DataFrame.selectAux (df : DataFrame) : List String → Except String (List (String × Series))
  | [] => .ok []
  | c :: rest =>
    match df.getCol c with
    | .error e => .error e
    | .ok s =>
      match df.selectAux rest with
      | .error e => .error e
      | .ok r => .ok ((c, s) :: r)

/-- Column subset in the given order, `df[names]` (`KeyError` on a miss). -/
def DataFrame.select (df : DataFrame) (names : List String) : Except String DataFrame :=
  match df.selectAux names with
  | .error e => .error e
  | .ok cols => .ok ⟨cols⟩

/-- `df.fillna(method='ffill').fillna(method='bfill')`, column by column. -/
def DataFrame.ffillBfill (df : DataFrame) : DataFrame :=
  ⟨df.cols.map (fun p => (p.1, seriesBfill (seriesFfill p.2)))⟩

/-- Mask of fully observed rows. -/
def DataFrame.completeMask (df : DataFrame) : List Bool :=
  df.cols.foldl (fun acc p => List.zipWith (fun b c => b && c.isSome) acc p.2)
    (List.replicate df.height true)

/-- `df.dropna()`: keep exactly the fully observed rows. -/
def DataFrame.dropna (df : DataFrame) : DataFrame :=
  let keep := df.completeMask
  ⟨df.cols.map (fun p =>
    (p.1, (List.zipWith (fun b c => if b then some c else none) keep p.2).filterMap id))⟩

/-- `df.iloc[-1:]`: the last row, as a one-row frame. -/
def DataFrame.lastRow (df : DataFrame) : DataFrame :=
  ⟨df.cols.map (fun p => (p.1, p.2.drop (p.2.length - 1)))⟩

/-- True when some cell of some column is missing (scikit-learn's
`check_array` rejects exactly these inputs, message
`Input contains NaN ...`). -/
def DataFrame.hasMissing (df : DataFrame) : Bool :=
  df.cols.any (fun p => p.2.any (fun c => c.isNone))

/-- Python dict update: replace in place or append, preserving order. -/
def setEntry {α : Type} (d : List (String × α)) (k : String) (v : α) :
    List (String × α) :=
  if d.any (fun p => p.1 == k) then
    d.map (fun p => if p.1 == k then (k, v) else p)
  else d ++ [(k, v)]

def lookupEntry {α : Type} (d : List (String × α)) (k : String) : Option α :=
  match d.find? (fun p => p.1 == k) with
  | some p => some p.2
  | none => none

/-! ## External indicator library (`ta`)

The `ta` functions called by `create_technical_features` are external library
code, not part of this repository; they are embedded by their standard
definitions (index-aligned series in, series of the same length out).  No
claim below consults the numeric values these produce — only the
missing/observed pattern of the resulting columns ever reaches a statement. -/

def sma_indicator (s : Series) (w : Nat) : Series := rollingMean w s

def ema_indicator (s : Series) (w : Nat) : Series :=
  minPeriodsMask w (ewmMean (qDiv ⟨2, 1⟩ ⟨(w : Int) + 1, 1⟩) s)

/-- Wilder smoothing, `ewm(alpha=1/w, min_periods=w, adjust=False).mean()`. -/
def wilderSmooth (w : Nat) (s : Series) : Series :=
  minPeriodsMask w (ewmMean ⟨1, w⟩ s)

/-- MACD histogram: `macd_diff` with the default 12/26/9 windows. -/
def macd_diff (close : Series) : Series :=
  let fast := ema_indicator close 12
  let slow := ema_indicator close 26
  let line := seriesZip cellSub fast slow
  let signal := minPeriodsMask 9 (ewmMean (qDiv ⟨2, 1⟩ ⟨10, 1⟩) line)
  seriesZip cellSub line signal

/-- True range: `max(high - low, |high - prev_close|, |low - prev_close|)`. -/
def trueRange (high low close : Series) : Series :=
  let pc := shiftPos 1 close
  seriesZip (cellMap2 qMax)
    (seriesZip cellSub high low)
    (seriesZip (cellMap2 qMax)
      (seriesZip (cellMap2 (fun a b => qAbs (qSub a b))) high pc)
      (seriesZip (cellMap2 (fun a b => qAbs (qSub a b))) low pc))

def average_true_range (high low close : Series) (w : Nat) : Series :=
  wilderSmooth w (trueRange high low close)

/-- Average directional index with Wilder smoothing (window 14 by default). -/
def adx (high low close : Series) (w : Nat) : Series :=
  let upMove := diffSeries high
  let downMove := seriesMap qNeg (diffSeries low)
  let dmPlus := seriesZip (cellMap2 (fun u d =>
    if qLt d u ∧ qLt ⟨0, 1⟩ u then u else ⟨0, 1⟩)) upMove downMove
  let dmMinus := seriesZip (cellMap2 (fun u d =>
    if qLt u d ∧ qLt ⟨0, 1⟩ d then d else ⟨0, 1⟩)) upMove downMove
  let str := wilderSmooth w (trueRange high low close)
  let dip := seriesMap (qMul ⟨100, 1⟩) (seriesZip cellDiv (wilderSmooth w dmPlus) str)
  let din := seriesMap (qMul ⟨100, 1⟩) (seriesZip cellDiv (wilderSmooth w dmMinus) str)
  let dx := seriesMap (qMul ⟨100, 1⟩)
    (seriesZip cellDiv (seriesZip (cellMap2 (fun a b => qAbs (qSub a b))) dip din)
      (seriesZip cellAdd dip din))
  wilderSmooth w dx

/-- Relative strength index.  When the smoothed loss is zero the float code
yields `rs = inf` and `rsi = 100`; the exact model reports the cell missing
instead — every concrete input used below keeps both gains and losses
strictly positive on the relevant windows, where the two agree. -/
def rsi (close : Series) (w : Nat) : Series :=
  let d := diffSeries close
  let gains := d.map (cellMap (fun x => qMax x ⟨0, 1⟩))
  let losses := d.map (cellMap (fun x => qMax (qNeg x) ⟨0, 1⟩))
  let rs := seriesZip cellDiv (wilderSmooth w gains) (wilderSmooth w losses)
  rs.map (cellMap (fun r => qSub ⟨100, 1⟩ (qDiv ⟨100, 1⟩ (qAdd ⟨1, 1⟩ r))))

/-- Stochastic oscillator `%K` over the default 14-period window. -/
def stoch (high low close : Series) (w : Nat) : Series :=
  let lo := rollingMin w low
  let hi := rollingMax w high
  seriesMap (qMul ⟨100, 1⟩)
    (seriesZip cellDiv (seriesZip cellSub close lo) (seriesZip cellSub hi lo))

/-- Commodity channel index over the default 20-period window. -/
def cci (high low close : Series) (w : Nat) : Series :=
  let tp := seriesMap (fun x => qDiv x ⟨3, 1⟩)
    (seriesZip cellAdd (seriesZip cellAdd high low) close)
  let mad := rollingApply w
    (fun l => some (qListMean (l.map (fun x => qAbs (qSub x (qListMean l)))))) tp
  seriesZip cellDiv (seriesZip cellSub tp (rollingMean w tp))
    (seriesMap (qMul ⟨15, 1000⟩) mad)

def williams_r (high low close : Series) (w : Nat) : Series :=
  let hi := rollingMax w high
  let lo := rollingMin w low
  seriesMap (qMul ⟨-100, 1⟩)
    (seriesZip cellDiv (seriesZip cellSub hi close) (seriesZip cellSub hi lo))

/-- Bollinger band width (window 20, two population standard deviations),
`(hband - lband) / mavg * 100`. -/
def bollinger_wband (close : Series) (w : Nat) : Series :=
  let mavg := rollingMean w close
  let sd := rollingApply w (fun l => some (qSqrt (qVarPop l))) close
  let hband := seriesZip cellAdd mavg (seriesMap (qMul ⟨2, 1⟩) sd)
  let lband := seriesZip cellSub mavg (seriesMap (qMul ⟨2, 1⟩) sd)
  seriesMap (qMul ⟨100, 1⟩) (seriesZip cellDiv (seriesZip cellSub hband lband) mavg)

/-- On-balance volume: cumulative sum of the volume signed by whether the
close fell (`np.where(close < close.shift(1), -volume, volume).cumsum()`). -/
def obvFrom (acc : Q) (prev : Cell) : List (Cell × Cell) → Series
  | [] => []
  | (c, v) :: rest =>
    match v with
    | none => List.replicate (rest.length + 1) none
    | some vol =>
      let signed := match prev, c with
        | some p, some cur => if qLt cur p then qNeg vol else vol
        | _, _ => vol
      let acc2 := qAdd acc signed
      some acc2 :: obvFrom acc2 c rest

def on_balance_volume (close volume : Series) : Series :=
  obvFrom ⟨0, 1⟩ none (close.zip volume)

/-- Money flow index over the default 14-period window.  A window with zero
negative flow yields `mfi = 100` in float arithmetic; the exact model reports
the cell missing — the concrete inputs below keep both flows positive. -/
def money_flow_index (high low close volume : Series) (w : Nat) : Series :=
  let tp := seriesMap (fun x => qDiv x ⟨3, 1⟩)
    (seriesZip cellAdd (seriesZip cellAdd high low) close)
  let dtp := diffSeries tp
  let mf := seriesZip cellMul tp volume
  let posFlow := seriesZip (cellMap2 (fun d m => if qLt ⟨0, 1⟩ d then m else ⟨0, 1⟩)) dtp mf
  let negFlow := seriesZip (cellMap2 (fun d m => if qLt d ⟨0, 1⟩ then m else ⟨0, 1⟩)) dtp mf
  let ratio := seriesZip cellDiv (rollingSum w posFlow) (rollingSum w negFlow)
  ratio.map (cellMap (fun r => qSub ⟨100, 1⟩ (qDiv ⟨100, 1⟩ (qAdd ⟨1, 1⟩ r))))

/-- Modelled stand-in for `np.log1p`: missing outside the domain of the float
function (`x < -1` gives `NaN`; `x = -1` gives `-inf`, equally rejected by the
scaler input check), and an arbitrary exact value inside it — no theorem
consults the value. -/
def log1pCell : Cell → Cell
  | none => none
  | some x => if qLe x ⟨-1, 1⟩ then none else some x

/-! ## `feature_engineering.py` -/

/-- One element of the `sentiment_data` list: a dict with the keys consumed by
`create_sentiment_features`. -/
structure SentimentRecord where
  sentiment : String
  confidence : Q
  volume : Q
deriving DecidableEq

/-- The market snapshot dict; `create_market_features` reads it only through
`market_data.get(key, 0)`. -/
abbrev MarketData := List (String × Q)

def marketGet (m : MarketData) (k : String) : Q :=
  match lookupEntry m k with
  | some v => v
  | none => ⟨0, 1⟩

/-- `df['sentiment'].map({'positive': 1, 'neutral': 0, 'negative': -1})`:
an unmapped label becomes missing. -/
def sentimentScore (s : String) : Cell :=
  if s == "positive" then some ⟨1, 1⟩
  else if s == "neutral" then some ⟨0, 1⟩
  else if s == "negative" then some ⟨-1, 1⟩
  else none

/-- pandas `Series.mean()` (`skipna=True` default): missing when no value is
observed. -/
def skipnaMean (s : Series) : Cell :=
  let obs := s.filterMap id
  if obs.length = 0 then none else some (qListMean obs)

/-- pandas `Series.sum()` (`skipna=True` default, empty sum is zero). -/
def skipnaSum (s : Series) : Q := qListSum (s.filterMap id)

/-- pandas `Series.std()` (`ddof=1`, `skipna=True`): missing for fewer than
two observations. -/
def skipnaStd (s : Series) : Cell := qStdSample (s.filterMap id)

/-- `(series > 0).mean()`: a pandas comparison treats a missing cell as
`False`, and the boolean mean divides by the full length. -/
def fractionAbove (s : Series) : Cell :=
  if s.length = 0 then none
  else some (qDiv (qOfNat ((s.filter (fun c =>
    match c with
    | some x => decide (qLt ⟨0, 1⟩ x)
    | none => false)).length)) (qOfNat s.length))

def fractionBelow (s : Series) : Cell :=
  if s.length = 0 then none
  else some (qDiv (qOfNat ((s.filter (fun c =>
    match c with
    | some x => decide (qLt x ⟨0, 1⟩)
    | none => false)).length)) (qOfNat s.length))

/-- `FeatureEngineer.create_sentiment_features`.  `pd.DataFrame([])` has no
columns at all, so on an empty record list the very first column access
`df['sentiment']` raises `KeyError`; on a non-empty list the six aggregate
features are computed as in the source, in dict order.  The result is the
one-row frame `pd.DataFrame([sentiment_features])` given as (name, cell)
pairs. -/
def create_sentiment_features (records : List SentimentRecord) :
    Except String (List (String × Cell)) :=
  if records.isEmpty then .error "KeyError: sentiment"
  else
    let score : Series := records.map (fun r => sentimentScore r.sentiment)
    let weighted : Series :=
      List.zipWith (fun c r => cellMul c (some r.confidence)) score records
    let volumeSum : Q := qListSum (records.map (fun r => r.volume))
    let weightedVolSum : Q :=
      skipnaSum (List.zipWith (fun c r => cellMul c (some r.volume)) weighted records)
    .ok
      [("avg_sentiment", skipnaMean score),
       ("weighted_avg_sentiment",
         if volumeSum.n = 0 then none else some (qDiv weightedVolSum volumeSum)),
       ("sentiment_volatility", skipnaStd score),
       ("sentiment_momentum", skipnaMean (diffSeries score)),
       ("positive_ratio", fractionAbove score),
       ("negative_ratio", fractionBelow score)]

/-- `FeatureEngineer.create_market_features`: the five `get`-with-default
reads, in dict order. -/
def create_market_features (market : MarketData) : List (String × Cell) :=
  [("market_volatility", some (marketGet market "volatility")),
   ("sector_performance", some (marketGet market "sector_performance")),
   ("market_sentiment", some (marketGet market "market_sentiment")),
   ("interest_rate", some (marketGet market "interest_rate")),
   ("market_volume", some (marketGet market "market_volume"))]

/-- `FeatureEngineer.create_technical_features`: the thirteen indicator
columns, assigned in source order. -/
def create_technical_features (df : DataFrame) : Except String DataFrame := do
  let close ← df.getCol "close"
  let high ← df.getCol "high"
  let low ← df.getCol "low"
  let volume ← df.getCol "volume"
  let df := df.setCol "sma_20" (sma_indicator close 20)
  let df := df.setCol "sma_50" (sma_indicator close 50)
  let df := df.setCol "ema_20" (ema_indicator close 20)
  let df := df.setCol "macd" (macd_diff close)
  let df := df.setCol "adx" (adx high low close 14)
  let df := df.setCol "rsi" (rsi close 14)
  let df := df.setCol "stoch" (stoch high low close 14)
  let df := df.setCol "cci" (cci high low close 20)
  let df := df.setCol "williams_r" (williams_r high low close 14)
  let df := df.setCol "bbands_width" (bollinger_wband close 20)
  let df := df.setCol "atr" (average_true_range high low close 14)
  let df := df.setCol "obv" (on_balance_volume close volume)
  let df := df.setCol "mfi" (money_flow_index high low close volume 14)
  return df

/-- `FeatureEngineer.create_price_features`: returns, log returns, the four
rolling windows and the two distance columns, in source order. -/
def create_price_features (df : DataFrame) : Except String DataFrame := do
  let close ← df.getCol "close"
  let high ← df.getCol "high"
  let low ← df.getCol "low"
  let returns := pctChange 1 close
  let df := df.setCol "returns" returns
  let df := df.setCol "log_returns" (returns.map log1pCell)
  let df := ([5, 10, 20, 50] : List Nat).foldl (fun d w =>
    let d := d.setCol ("volatility_" ++ toString w ++ "d") (rollingStd w returns)
    let d := d.setCol ("momentum_" ++ toString w ++ "d") (rollingMean w returns)
    d.setCol ("price_range_" ++ toString w ++ "d")
      (seriesZip cellDiv
        (seriesZip cellSub (rollingMax w high) (rollingMin w low)) close)) df
  let df := df.setCol "distance_from_high"
    (seriesMap (fun x => qSub x ⟨1, 1⟩) (seriesZip cellDiv close (rollingMax 20 high)))
  let df := df.setCol "distance_from_low"
    (seriesMap (fun x => qSub x ⟨1, 1⟩) (seriesZip cellDiv close (rollingMin 20 low)))
  return df

/-- Per-column statistics fitted by `StandardScaler`: name, mean and
population variance. -/
abbrev ScalerStats := List (String × Q × Q)

def fitStats (df : DataFrame) : ScalerStats :=
  df.cols.map (fun p =>
    let obs := p.2.filterMap id
    (p.1, qListMean obs, qVarPop obs))

/-- `StandardScaler` scale for one column: `sqrt(var)`, with a zero variance
replaced by one (scikit-learn `_handle_zeros_in_scale`). -/
def scaleOf (v : Q) : Q := if v = ⟨0, 1⟩ then ⟨1, 1⟩ else qSqrt v

/-- `StandardScaler().fit_transform(df)`: reject any missing value (the
`check_array` validation), then standardise each column by its own fitted
mean and scale. -/
def standardFitTransform (df : DataFrame) : Except String (ScalerStats × DataFrame) :=
  if df.hasMissing then
    .error "ValueError: Input contains NaN"
  else
    let stats := fitStats df
    .ok (stats, ⟨df.cols.map (fun p =>
      let obs := p.2.filterMap id
      let m := qListMean obs
      let sc := scaleOf (qVarPop obs)
      (p.1, p.2.map (cellMap (fun x => qDiv (qSub x m) sc))))⟩)

/-- The `FeatureEngineer` instance state: `self.scaler` (unfitted at
construction, carrying the fitted statistics afterwards) and
`self.feature_columns`. -/
structure FeatureEngineer where
  scaler : Option ScalerStats
  feature_columns : List String
deriving DecidableEq

def FeatureEngineer.new : FeatureEngineer := ⟨none, []⟩

/-- The six raw columns excluded from scaling in `prepare_features`. -/
def rawColumns : List String := ["date", "open", "high", "low", "close", "volume"]

/-- `FeatureEngineer.prepare_features`: technical and price features on a copy
of the history, sentiment and market one-row frames broadcast as constant
columns, forward/backward fill, then fit-and-transform of every non-raw
column.  Returns the updated engineer state (refitted scaler, overwritten
`self.feature_columns`), the frame and the feature column list. -/
def FeatureEngineer.prepare_features (eng : FeatureEngineer)
    (historical : DataFrame) (sentiment : List SentimentRecord)
    (market : MarketData) :
    Except String (FeatureEngineer × DataFrame × List String) := do
  let df := historical
  let df ← create_technical_features df
  let df ← create_price_features df
  let sentFeatures ← create_sentiment_features sentiment
  let marketFeatures := create_market_features market
  let n := df.height
  let df := sentFeatures.foldl
    (fun d p => d.setCol ("sentiment_" ++ p.1) (List.replicate n p.2)) df
  let df := marketFeatures.foldl
    (fun d p => d.setCol ("market_" ++ p.1) (List.replicate n p.2)) df
  let df := df.ffillBfill
  let feature_cols := df.columns.filter (fun c => !rawColumns.contains c)
  let sub ← df.select feature_cols
  let (stats, scaled) ← standardFitTransform sub
  let df := scaled.cols.foldl (fun d p => d.setCol p.1 p.2) df
  return (({ scaler := some stats, feature_columns := feature_cols } : FeatureEngineer),
    df, feature_cols)

/-- The four forecast horizons, `self.forecast_periods`. -/
def forecast_periods : List Nat := [1, 5, 10, 20]

/-- `FeatureEngineer.create_targets`: future return and future rolling
volatility per horizon, then `dropna()`. -/
def create_targets (df : DataFrame) (periods : List Nat) : Except String DataFrame := do
  let mut d := df
  for p in periods do
    let close ← d.getCol "close"
    d := d.setCol ("target_" ++ toString p ++ "d") (shiftNeg p (pctChange p close))
    let returns ← d.getCol "returns"
    d := d.setCol ("risk_" ++ toString p ++ "d") (shiftNeg p (rollingStd p returns))
  return d.dropna

/-- `FeatureEngineer.prepare_prediction_data`: run the full `prepare_features`
on the inference inputs (refitting the scaler and overwriting
`self.feature_columns` in the process), then return the last row of the
recomputed feature columns. -/
def FeatureEngineer.prepare_prediction_data (eng : FeatureEngineer)
    (current : DataFrame) (sentiment : List SentimentRecord)
    (market : MarketData) : Except String (FeatureEngineer × DataFrame) := do
  let (eng2, df, _) ← eng.prepare_features current sentiment market
  let sub ← df.select eng2.feature_columns
  return (eng2, sub.lastRow)

/-! ## `predictive_model.py` -/

/-- The regressor class chosen by `_create_model`: every branch of the optuna
search space is one of these four scikit-learn-style regressors. -/
inductive RegressorKind where
  | rf
  | gbm
  | xgb
  | lgbm

/-- A fitted regressor as the surrounding code consumes it: its class, the
`feature_importances_` attribute and the `predict` method (one value per
input row). -/
structure Model where
  kind : RegressorKind
  feature_importances : List Q
  predictRows : DataFrame → List Q

/-- Attribute access `model.predict_proba`: none of the four regressor
classes `_create_model` can return carries that attribute, so the lookup
raises `AttributeError` for each. -/
def Model.predict_probaAttr (m : Model) : Except String (DataFrame → List (List Q)) :=
  match m.kind with
  | .rf => .error "AttributeError: RandomForestRegressor has no attribute predict_proba"
  | .gbm =>
    .error "AttributeError: GradientBoostingRegressor has no attribute predict_proba"
  | .xgb => .error "AttributeError: XGBRegressor has no attribute predict_proba"
  | .lgbm => .error "AttributeError: LGBMRegressor has no attribute predict_proba"

/-- The metrics dict `_calculate_metrics` returns (`rmse`, `mae`, `r2`). -/
abbrev Metrics := List (String × Q)

/-- Outcome oracle for the nondeterministic tail of `_train_model`: past the
deterministic `TimeSeriesSplit` sample-count check, the optuna search, the
cross-validated and final fits and the metric computation are external
nondeterministic work, modelled as a function of the design matrix, the
target column and the model name that either returns a fitted model with its
metrics or raises.  `shapValues` stands for
`shap.TreeExplainer(model).shap_values(X)`. -/
structure FitEnv where
  fit : DataFrame → Series → String → Except String (Model × Metrics)
  shapValues : Model → DataFrame → Except String (List (List Q))

/-- `StockPredictiveModel._train_model`.  Its first step is deterministic:
the optuna objective iterates `TimeSeriesSplit(n_splits=5).split(X)`, which
raises `ValueError` whenever the design matrix holds fewer than
`n_splits + 1 = 6` samples, before any hyperparameter suggestion or fit can
run (and optuna re-raises an objective exception by default).  Past that
guard the call is the external search-and-fit work, delegated to the
oracle. -/
def StockPredictiveModel._train_model (env : FitEnv) (X : DataFrame)
    (y : Series) (model_name : String) : Except String (Model × Metrics) :=
  if X.height < 6 then
    .error ("ValueError: Cannot have number of folds=6 greater than the number of samples="
      ++ toString X.height ++ ".")
  else env.fit X y model_name

/-- Sorted feature-importance table,
`pd.DataFrame({'feature': ..., 'importance': ...}).sort_values('importance',
ascending=False)`. -/
abbrev ImportanceTable := List (String × Q)

def insertByImportance (x : String × Q) : ImportanceTable → ImportanceTable
  | [] => [x]
  | y :: ys => if qLt y.2 x.2 then x :: y :: ys else y :: insertByImportance x ys

def sortByImportance : ImportanceTable → ImportanceTable
  | [] => []
  | x :: xs => insertByImportance x (sortByImportance xs)

/-- The mutable state of a `StockPredictiveModel` instance. -/
structure StockPredictiveModel where
  feature_engineer : FeatureEngineer
  models : List (String × Model)
  feature_importance : List (String × ImportanceTable)
  shap_values : List (String × List (List Q))

def StockPredictiveModel.new : StockPredictiveModel :=
  ⟨FeatureEngineer.new, [], [], []⟩

/-- The per-horizon entry of the `results` dict built by `train`. -/
structure PeriodMetrics where
  growth_metrics : Metrics
  risk_metrics : Metrics
deriving DecidableEq

/-- The dict `train` returns: either
`{'status': 'success', 'metrics': ..., 'feature_importance': ...}` or
`{'status': 'error', 'error': ...}`. -/
inductive TrainOutcome where
  | success (metrics : List (String × PeriodMetrics))
      (feature_importance : List (String × ImportanceTable))
  | failure (error : String)
deriving DecidableEq

def TrainOutcome.status : TrainOutcome → String
  | .success _ _ => "success"
  | .failure _ => "error"

/-- The `prepare_features` / `create_targets` prefix of `train`, with the
partial state mutation (`self.feature_engineer` is updated as soon as
`prepare_features` returns) carried through the error case. -/
def StockPredictiveModel.prepSteps (m : StockPredictiveModel)
    (historical : DataFrame) (sentiment : List SentimentRecord)
    (market : MarketData) :
    Except (StockPredictiveModel × String)
      (StockPredictiveModel × DataFrame × List String) :=
  match m.feature_engineer.prepare_features historical sentiment market with
  | .error e => .error (m, e)
  | .ok (eng2, df, feature_cols) =>
    let m1 := { m with feature_engineer := eng2 }
    match create_targets df forecast_periods with
    | .error e => .error (m1, e)
    | .ok df2 => .ok (m1, df2, feature_cols)

/-- The body of `train`'s `for period in self.forecast_periods` loop.  The
first exception aborts the remaining iterations; the state accumulated so far
(models of fully finished horizons) is carried into the error. -/
def trainLoop (env : FitEnv) (df : DataFrame) (feature_cols : List String) :
    StockPredictiveModel → List (String × PeriodMetrics) → List Nat →
    Except (StockPredictiveModel × String)
      (StockPredictiveModel × List (String × PeriodMetrics))
  | m, acc, [] => .ok (m, acc)
  | m, acc, p :: rest =>
    let pd := toString p ++ "d"
    match df.select feature_cols with
    | .error e => .error (m, e)
    | .ok X =>
      match df.getCol ("target_" ++ pd) with
      | .error e => .error (m, e)
      | .ok yGrowth =>
        match StockPredictiveModel._train_model env X yGrowth ("growth_" ++ pd) with
        | .error e => .error (m, e)
        | .ok (growthModel, growthMetrics) =>
          match df.getCol ("risk_" ++ pd) with
          | .error e => .error (m, e)
          | .ok yRisk =>
            match StockPredictiveModel._train_model env X yRisk ("risk_" ++ pd) with
            | .error e => .error (m, e)
            | .ok (riskModel, riskMetrics) =>
              let newModels :=
                setEntry (setEntry m.models ("growth_" ++ pd) growthModel)
                  ("risk_" ++ pd) riskModel
              let m := { m with models := newModels }
              let table := sortByImportance
                (feature_cols.zip growthModel.feature_importances)
              match env.shapValues growthModel X with
              | .error e => .error (m, e)
              | .ok sv =>
                let m := { m with
                  feature_importance :=
                    setEntry m.feature_importance ("growth_" ++ pd) table,
                  shap_values := setEntry m.shap_values ("growth_" ++ pd) sv }
                trainLoop env df feature_cols m
                  (acc ++ [(pd, ⟨growthMetrics, riskMetrics⟩)]) rest

/-- `StockPredictiveModel.train`: one `try/except` around feature
preparation, target creation and the whole horizon loop; any exception
anywhere yields the single `{'status': 'error', ...}` dict. -/
def StockPredictiveModel.train (env : FitEnv) (m : StockPredictiveModel)
    (historical : DataFrame) (sentiment : List SentimentRecord)
    (market : MarketData) : StockPredictiveModel × TrainOutcome :=
  match m.prepSteps historical sentiment market with
  | .error (m1, e) => (m1, .failure e)
  | .ok (m1, df2, feature_cols) =>
    match trainLoop env df2 feature_cols m1 [] forecast_periods with
    | .error (m2, e) => (m2, .failure e)
    | .ok (m2, results) => (m2, .success results m2.feature_importance)

/-- `StockPredictiveModel._categorize_risk`: the if/elif chain over the raw
score. -/
def categorize_risk (risk_score : Q) : String :=
  if qLt risk_score ⟨1, 5⟩ then "Very Low"
  else if qLt risk_score ⟨2, 5⟩ then "Low"
  else if qLt risk_score ⟨3, 5⟩ then "Moderate"
  else if qLt risk_score ⟨4, 5⟩ then "High"
  else "Very High"

/-- The per-horizon entry of the `predictions` dict built by `predict`:
point growth, the `± 1.96 * growth_std` interval, risk score and level. -/
structure PredictionEntry where
  growth_prediction : Q
  ci_lower : Q
  ci_upper : Q
  risk_score : Q
  risk_level : String

/-- The dict `predict` returns. -/
inductive PredictOutcome where
  | success (predictions : List (String × PredictionEntry))
  | failure (error : String)

def PredictOutcome.status : PredictOutcome → String
  | .success _ => "success"
  | .failure _ => "error"

/-- `array[0]` on the prediction vector: `IndexError` when empty. -/
def firstOf (l : List Q) : Except String Q :=
  match l with
  | [] => .error "IndexError: index 0 is out of bounds"
  | x :: _ => .ok x

/-- Sample standard deviation of a plain vector, `ndarray.std()`. -/
def vecStd (l : List Q) : Q := qSqrt (qVarPop l)

/-- The body of `predict`'s horizon loop, in source order: look up and apply
the growth model, look up and apply the risk model, then read
`predict_proba` off the growth model for the interval width (the step that
raises `AttributeError` for every regressor `_create_model` builds). -/
def predictLoop (m : StockPredictiveModel) (X : DataFrame) :
    List Nat → List (String × PredictionEntry) →
    Except String (List (String × PredictionEntry))
  | [], acc => .ok acc
  | p :: rest, acc =>
    let pd := toString p ++ "d"
    match lookupEntry m.models ("growth_" ++ pd) with
    | none => .error ("KeyError: growth_" ++ pd)
    | some growthModel =>
      match firstOf (growthModel.predictRows X) with
      | .error e => .error e
      | .ok growthPred =>
        match lookupEntry m.models ("risk_" ++ pd) with
        | none => .error ("KeyError: risk_" ++ pd)
        | some riskModel =>
          match firstOf (riskModel.predictRows X) with
          | .error e => .error e
          | .ok riskPred =>
            match growthModel.predict_probaAttr with
            | .error e => .error e
            | .ok proba =>
              match (proba X) with
              | [] => .error "IndexError: index 0 is out of bounds"
              | row :: _ =>
                let growthStd := vecStd row
                let entry : PredictionEntry :=
                  { growth_prediction := growthPred,
                    ci_lower := qSub growthPred (qMul ⟨196, 100⟩ growthStd),
                    ci_upper := qAdd growthPred (qMul ⟨196, 100⟩ growthStd),
                    risk_score := riskPred,
                    risk_level := categorize_risk riskPred }
                predictLoop m X rest (acc ++ [(pd, entry)])

/-- `StockPredictiveModel.predict`: prepare the inference row (mutating the
engineer), run the horizon loop, and flatten any exception into the
`{'status': 'error', ...}` dict. -/
def StockPredictiveModel.predict (m : StockPredictiveModel)
    (current : DataFrame) (sentiment : List SentimentRecord)
    (market : MarketData) : StockPredictiveModel × PredictOutcome :=
  match m.feature_engineer.prepare_prediction_data current sentiment market with
  | .error e => (m, .failure e)
  | .ok (eng2, X) =>
    let m1 := { m with feature_engineer := eng2 }
    match predictLoop m1 X forecast_periods [] with
    | .error e => (m1, .failure e)
    | .ok preds => (m1, .success preds)

/-! ## `model_manager.py` -/

/-- The model directory on disk, as the set of paths successfully written. -/
structure Disk where
  files : List String
deriving DecidableEq

/-- Oracle for the two persistence calls: `joblib.dump` of the model artifact
and `json.dump` of the metadata, each of which can raise. -/
structure IoEnv where
  dumpModel : String → Except String Unit
  dumpJson : String → Except String Unit

/-- The value stored in `self.model_metadata[symbol]`: training instant
(`datetime.now().isoformat()`, modelled in days), metrics and feature
importance. -/
structure MetadataEntry where
  last_trained : Q
  metrics : List (String × PeriodMetrics)
  feature_importance : List (String × ImportanceTable)

/-- The `ModelManager` instance state. -/
structure ModelManager where
  model_dir : String
  models : List (String × StockPredictiveModel)
  model_metadata : List (String × MetadataEntry)

def ModelManager.new (dir : String) : ModelManager := ⟨dir, [], []⟩

def modelPath (dir symbol : String) : String := dir ++ "/" ++ symbol ++ "_model.joblib"

def metadataPath (dir symbol : String) : String :=
  dir ++ "/" ++ symbol ++ "_metadata.json"

/-- `ModelManager._save_model`: `joblib.dump` at the model path. -/
def saveModel (env : IoEnv) (dir symbol : String) (disk : Disk) :
    Except String Disk :=
  match env.dumpModel (modelPath dir symbol) with
  | .error e => .error e
  | .ok _ => .ok ⟨disk.files ++ [modelPath dir symbol]⟩

/-- `ModelManager._save_metadata`: `json.dump` at the metadata path. -/
def saveMetadata (env : IoEnv) (dir symbol : String) (disk : Disk) :
    Except String Disk :=
  match env.dumpJson (metadataPath dir symbol) with
  | .error e => .error e
  | .ok _ => .ok ⟨disk.files ++ [metadataPath dir symbol]⟩

/-- `ModelManager.train_model`: train a fresh `StockPredictiveModel`; only on
`'status': 'success'` store it in the in-memory maps and save both files;
any exception raised by the saves is flattened by the surrounding
`try/except` into the same plain `{'status': 'error', ...}` dict that a
training failure produces. -/
def ModelManager.train_model (mgr : ModelManager) (env : IoEnv) (fitEnv : FitEnv)
    (now : Q) (disk : Disk) (symbol : String) (historical : DataFrame)
    (sentiment : List SentimentRecord) (market : MarketData) :
    ModelManager × Disk × TrainOutcome :=
  let trained := StockPredictiveModel.train fitEnv StockPredictiveModel.new
    historical sentiment market
  match trained.2 with
  | .failure e => (mgr, disk, .failure e)
  | .success mets fi =>
    let mgr1 : ModelManager :=
      { mgr with
        models := setEntry mgr.models symbol trained.1,
        model_metadata := setEntry mgr.model_metadata symbol
          ⟨now, mets, fi⟩ }
    match saveModel env mgr1.model_dir symbol disk with
    | .error e => (mgr1, disk, .failure e)
    | .ok disk1 =>
      match saveMetadata env mgr1.model_dir symbol disk1 with
      | .error e => (mgr1, disk1, .failure e)
      | .ok disk2 => (mgr1, disk2, .success mets fi)

/-- The dict `retrain_if_needed` returns: either whatever `train_model`
returned, or the `{'status': 'success', 'message': 'Model is up to date
(last trained {age} days ago)'}` no-op report carrying the age. -/
inductive ManagerResult where
  | fromTraining (r : TrainOutcome)
  | upToDate (ageDays : Int)

def ManagerResult.status : ManagerResult → String
  | .fromTraining r => r.status
  | .upToDate _ => "success"

/-- `timedelta.days`: floor of the difference measured in days. -/
def qFloor (q : Q) : Int := Int.fdiv q.n (q.d : Int)

/-- `ModelManager.retrain_if_needed`: retrain when no metadata is stored or
when the floored age in days strictly exceeds `max_age_days`; otherwise a
no-op that only reports the age. -/
def ModelManager.retrain_if_needed (mgr : ModelManager) (env : IoEnv)
    (fitEnv : FitEnv) (now : Q) (disk : Disk) (symbol : String)
    (historical : DataFrame) (sentiment : List SentimentRecord)
    (market : MarketData) (max_age_days : Int) :
    ModelManager × Disk × ManagerResult :=
  match lookupEntry mgr.model_metadata symbol with
  | some md =>
    let age := qFloor (qSub now md.last_trained)
    if max_age_days < age then
      let r := mgr.train_model env fitEnv now disk symbol historical sentiment market
      (r.1, r.2.1, .fromTraining r.2.2)
    else
      (mgr, disk, .upToDate age)
  | none =>
    let r := mgr.train_model env fitEnv now disk symbol historical sentiment market
    (r.1, r.2.1, .fromTraining r.2.2)

/-! ## Concrete scenario data

A 70-row OHLCV history (70 = the largest forecast horizon, 20, plus the
largest rolling window, 50), alternating so that every divisor the pipeline
forms — price levels, high/low spreads, smoothed gains and losses, positive
and negative money flows — stays away from zero, together with small
sentiment and market inputs. -/

def closeAt (i : Nat) : Q := ⟨100 + (i % 2) * 4 + (i % 3), 1⟩

def histRows : Nat := 70

/-- The valid base history frame (columns in pandas order). -/
def base70 : DataFrame :=
  ⟨[("date", (List.range histRows).map (fun i => some ⟨(i : Int), 1⟩)),
    ("open", (List.range histRows).map (fun i => some (closeAt i))),
    ("high", (List.range histRows).map (fun i => some (qAdd (closeAt i) ⟨1, 1⟩))),
    ("low", (List.range histRows).map (fun i => some (qSub (closeAt i) ⟨1, 1⟩))),
    ("close", (List.range histRows).map (fun i => some (closeAt i))),
    ("volume", (List.range histRows).map (fun i => some ⟨10 + (i % 4), 1⟩))]⟩

/-- The base history with one extra numeric column, which `prepare_features`
sweeps into the feature schema. -/
def base70extra : DataFrame :=
  ⟨base70.cols ++ [("extra_feat", List.replicate histRows (some ⟨1, 1⟩))]⟩

def sentTwo : List SentimentRecord :=
  [⟨"positive", ⟨9, 10⟩, ⟨100, 1⟩⟩, ⟨"negative", ⟨6, 10⟩, ⟨50, 1⟩⟩]

def sentOne : List SentimentRecord := [⟨"positive", ⟨9, 10⟩, ⟨100, 1⟩⟩]

def mktOne : MarketData :=
  [("volatility", ⟨1, 1⟩), ("sector_performance", ⟨2, 1⟩),
   ("market_sentiment", ⟨1, 2⟩), ("interest_rate", ⟨3, 1⟩),
   ("market_volume", ⟨1000, 1⟩)]

/-- A second market snapshot, differing in the volatility entry only. -/
def mktTwo : MarketData :=
  [("volatility", ⟨2, 1⟩), ("sector_performance", ⟨2, 1⟩),
   ("market_sentiment", ⟨1, 2⟩), ("interest_rate", ⟨3, 1⟩),
   ("market_volume", ⟨1000, 1⟩)]

/-- Row count of the smaller valid history: the least for which every rolling
column retains an observed cell (the window-50 statistics of the returns
column need indices past 50). -/
def histRowsSmall : Nat := 52

/-- A 52-row valid history with the same alternating price pattern. -/
def base52 : DataFrame :=
  ⟨[("date", (List.range histRowsSmall).map (fun i => some ⟨(i : Int), 1⟩)),
    ("open", (List.range histRowsSmall).map (fun i => some (closeAt i))),
    ("high", (List.range histRowsSmall).map (fun i => some (qAdd (closeAt i) ⟨1, 1⟩))),
    ("low", (List.range histRowsSmall).map (fun i => some (qSub (closeAt i) ⟨1, 1⟩))),
    ("close", (List.range histRowsSmall).map (fun i => some (closeAt i))),
    ("volume", (List.range histRowsSmall).map (fun i => some ⟨10 + (i % 4), 1⟩))]⟩

/-- The 52-row history with one extra numeric column. -/
def base52extra : DataFrame :=
  ⟨base52.cols ++ [("extra_feat", List.replicate histRowsSmall (some ⟨1, 1⟩))]⟩

/-- A concrete fitted regressor for the training oracles (a random forest:
what matters is only that it is one of the four regressor classes). -/
def oracleModel : Model :=
  ⟨.rf, List.replicate 41 ⟨1, 41⟩, fun df => List.replicate df.height ⟨1, 100⟩⟩

def oracleMetrics : Metrics :=
  [("rmse", ⟨1, 100⟩), ("mae", ⟨1, 100⟩), ("r2", ⟨9, 10⟩)]

def oracleShap : List (List Q) := [[⟨0, 1⟩]]

/-- Fitting oracle on which every fit past the sample-count guard
succeeds. -/
def fitAllOk : FitEnv :=
  ⟨fun _ _ _ => .ok (oracleModel, oracleMetrics), fun _ _ => .ok oracleShap⟩

/-- Disk oracle on which every write succeeds. -/
def ioAllOk : IoEnv := ⟨fun _ => .ok (), fun _ => .ok ()⟩

/-! ## Claims -/

/-- C6.  `_categorize_risk` sends the score `a / b` (any fraction) to exactly
the claimed bucket, with upper-bound-exclusive thresholds: below `1/5` is
`Very Low`, then `Low` up to (excluding) `2/5`, `Moderate` up to `3/5`,
`High` up to `4/5`, and `Very High` from `4/5` on — in particular each
boundary score falls in the higher bucket. -/
theorem categorize_risk_correct (a : Int) (b : Nat) :
    (5 * a < (b : Int) → categorize_risk ⟨a, b⟩ = "Very Low") ∧
    ((b : Int) ≤ 5 * a → 5 * a < 2 * (b : Int) → categorize_risk ⟨a, b⟩ = "Low") ∧
    (2 * (b : Int) ≤ 5 * a → 5 * a < 3 * (b : Int) →
      categorize_risk ⟨a, b⟩ = "Moderate") ∧
    (3 * (b : Int) ≤ 5 * a → 5 * a < 4 * (b : Int) →
      categorize_risk ⟨a, b⟩ = "High") ∧
    (4 * (b : Int) ≤ 5 * a → categorize_risk ⟨a, b⟩ = "Very High") := by
  unfold categorize_risk qLt
  dsimp only
  split_ifs with h1 h2 h3 h4 <;>
    refine ⟨fun hh => ?_, fun hh1 hh2 => ?_, fun hh1 hh2 => ?_,
      fun hh1 hh2 => ?_, fun hh => ?_⟩ <;>
    first
      | rfl
      | (exfalso; omega)

/-- Witness for C6 at the boundary score `0.2 = 1/5`: it lands in `Low`,
not `Very Low`. -/
theorem categorize_risk_correct_witness :
    (((5 : Nat) : Int) ≤ 5 * 1 ∧ 5 * 1 < 2 * ((5 : Nat) : Int)) ∧
    categorize_risk ⟨1, 5⟩ = "Low" :=
  ⟨⟨by decide, by decide⟩,
   (categorize_risk_correct 1 5).2.1 (by decide) (by decide)⟩

/-- C5.  `pd.DataFrame([])` has no columns, so on the empty sentiment-record
list `create_sentiment_features` raises `KeyError` at `df['sentiment']`
instead of returning an all-default block, and consequently no
`prepare_features` call receiving the empty list can succeed. -/
theorem create_sentiment_features_empty_raises :
    create_sentiment_features ([] : List SentimentRecord) =
      .error "KeyError: sentiment" ∧
    ∀ (eng : FeatureEngineer) (hist : DataFrame) (mkt : MarketData),
      (eng.prepare_features hist [] mkt).isOk = false := by
  refine ⟨rfl, fun eng hist mkt => ?_⟩
  unfold FeatureEngineer.prepare_features
  simp only [bind, Except.bind]
  cases h1 : create_technical_features hist with
  | error e => rfl
  | ok df1 =>
    dsimp only
    cases h2 : create_price_features df1 with
    | error e => rfl
    | ok df2 => rfl

/-- Helper for C4: the very first horizon of the prediction loop raises in
every case — at the latest at the `predict_proba` attribute access, which no
regressor class provides. -/
theorem predictLoop_cons_errors (m : StockPredictiveModel) (X : DataFrame)
    (p : Nat) (rest : List Nat) (acc : List (String × PredictionEntry)) :
    ∃ e, predictLoop m X (p :: rest) acc = .error e := by
  simp only [predictLoop]
  cases h1 : lookupEntry m.models ("growth_" ++ (toString p ++ "d")) with
  | none => exact ⟨_, rfl⟩
  | some gm =>
    dsimp only
    cases h2 : firstOf (gm.predictRows X) with
    | error e => exact ⟨e, rfl⟩
    | ok gp =>
      dsimp only
      cases h3 : lookupEntry m.models ("risk_" ++ (toString p ++ "d")) with
      | none => exact ⟨_, rfl⟩
      | some rm =>
        dsimp only
        cases h4 : firstOf (rm.predictRows X) with
        | error e => exact ⟨e, rfl⟩
        | ok rp =>
          dsimp only [Model.predict_probaAttr]
          cases hk : gm.kind <;> exact ⟨_, rfl⟩

/-- C4.  Every `predict` call returns the `{'status': 'error'}` dict: the
interval width is read from `predict_proba`, an attribute none of the four
regressor classes `_create_model` can produce carries, so the first horizon
already raises `AttributeError` (when it is not stopped earlier by a missing
model key, an empty prediction vector or a feature-preparation failure).  No
confidence interval is ever produced. -/
theorem predict_always_errors (m : StockPredictiveModel) (current : DataFrame)
    (sentiment : List SentimentRecord) (market : MarketData) :
    ((m.predict current sentiment market).2).status = "error" := by
  unfold StockPredictiveModel.predict
  cases h : m.feature_engineer.prepare_prediction_data current sentiment market with
  | error e => rfl
  | ok pr =>
    obtain ⟨eng2, X⟩ := pr
    dsimp only
    obtain ⟨e, he⟩ := predictLoop_cons_errors
      { m with feature_engineer := eng2 } X 1 [5, 10, 20] []
    simp only [forecast_periods]
    rw [he]
    rfl

/-- C10.  When the inner training reports anything but success,
`ModelManager.train_model` is read-only: the in-memory model cache and
metadata map are returned unchanged and no file is written; cache and disk
are touched only on a success report. -/
theorem train_model_no_update_on_failure
    (mgr : ModelManager) (env : IoEnv) (fitEnv : FitEnv) (now : Q) (disk : Disk)
    (symbol : String) (hist : DataFrame) (sent : List SentimentRecord)
    (mkt : MarketData)
    (hfail : (StockPredictiveModel.train fitEnv StockPredictiveModel.new
      hist sent mkt).2.status ≠ "success") :
    mgr.train_model env fitEnv now disk symbol hist sent mkt =
      (mgr, disk,
       (StockPredictiveModel.train fitEnv StockPredictiveModel.new hist sent mkt).2) := by
  unfold ModelManager.train_model
  dsimp only
  cases h : (StockPredictiveModel.train fitEnv StockPredictiveModel.new
      hist sent mkt).2 with
  | failure e => rfl
  | success mets fi =>
    exfalso
    rw [h] at hfail
    exact hfail rfl

/-- Witness for C10: training on an empty history frame fails immediately
(`KeyError: close`), and `train_model` then returns the untouched manager,
the untouched disk and the inner error dict. -/
theorem train_model_no_update_on_failure_witness :
    ((StockPredictiveModel.train fitAllOk StockPredictiveModel.new
      (⟨[]⟩ : DataFrame) sentTwo mktOne).2.status ≠ "success") ∧
    (ModelManager.new "models").train_model ioAllOk fitAllOk ⟨0, 1⟩
        (⟨[]⟩ : Disk) "AAPL" (⟨[]⟩ : DataFrame) sentTwo mktOne =
      (ModelManager.new "models", (⟨[]⟩ : Disk),
       (StockPredictiveModel.train fitAllOk StockPredictiveModel.new
         (⟨[]⟩ : DataFrame) sentTwo mktOne).2) :=
  ⟨by decide,
   train_model_no_update_on_failure (ModelManager.new "models") ioAllOk
     fitAllOk ⟨0, 1⟩ ⟨[]⟩ "AAPL" ⟨[]⟩ sentTwo mktOne (by decide)⟩

/-! Dictionary lemmas used by the staleness-policy claim. -/

theorem lookupEntry_append_right {α : Type} (d l2 : List (String × α)) (k : String)
    (h : d.any (fun p => p.1 == k) = false) :
    lookupEntry (d ++ l2) k = lookupEntry l2 k := by
  induction d with
  | nil => rfl
  | cons p rest ih =>
    simp only [List.any_cons, Bool.or_eq_false_iff] at h
    unfold lookupEntry
    simp only [List.cons_append, List.find?_cons, h.1]
    exact ih h.2

theorem lookupEntry_map_replace {α : Type} (d : List (String × α)) (k : String) (v : α) :
    lookupEntry (d.map (fun p => if p.1 == k then (k, v) else p)) k =
      if d.any (fun p => p.1 == k) then some v else none := by
  induction d with
  | nil => rfl
  | cons p rest ih =>
    by_cases hp : (p.1 == k) = true
    · unfold lookupEntry
      rw [List.map_cons, if_pos hp, List.any_cons, hp, Bool.true_or, if_pos rfl,
        List.find?_cons_of_pos _ (by exact beq_self_eq_true k)]
    · have hp' : (p.1 == k) = false := Bool.eq_false_iff.mpr hp
      rw [List.map_cons, if_neg hp, List.any_cons, hp', Bool.false_or]
      unfold lookupEntry at ih ⊢
      rw [List.find?_cons_of_neg _ (by rw [hp']; exact Bool.false_ne_true)]
      exact ih

theorem lookupEntry_setEntry_self {α : Type} (d : List (String × α)) (k : String)
    (v : α) : lookupEntry (setEntry d k v) k = some v := by
  unfold setEntry
  by_cases h : (d.any (fun p => p.1 == k)) = true
  · rw [if_pos h, lookupEntry_map_replace, if_pos h]
  · rw [if_neg h, lookupEntry_append_right d _ k (Bool.eq_false_iff.mpr h)]
    unfold lookupEntry
    rw [List.find?_cons_of_pos _ (by exact beq_self_eq_true k)]

/-- The in-memory training instant stored for a symbol. -/
def lastTrainedOf (mgr : ModelManager) (symbol : String) : Option Q :=
  (lookupEntry mgr.model_metadata symbol).map (fun md => md.last_trained)

/-- `train_model` either leaves the metadata map alone (training failed) or
stamps the symbol with the current instant. -/
theorem train_model_metadata_cases
    (mgr : ModelManager) (env : IoEnv) (fitEnv : FitEnv) (now : Q) (disk : Disk)
    (symbol : String) (hist : DataFrame) (sent : List SentimentRecord)
    (mkt : MarketData) :
    (mgr.train_model env fitEnv now disk symbol hist sent mkt).1.model_metadata =
        mgr.model_metadata ∨
    lastTrainedOf (mgr.train_model env fitEnv now disk symbol hist sent mkt).1
        symbol = some now := by
  unfold ModelManager.train_model
  dsimp only
  cases (StockPredictiveModel.train fitEnv StockPredictiveModel.new
      hist sent mkt).2 with
  | failure e => exact Or.inl rfl
  | success mets fi =>
    right
    have key : ∀ (d : Disk) (r : TrainOutcome),
        lastTrainedOf
          ({ mgr with
             models := setEntry mgr.models symbol
               (StockPredictiveModel.train fitEnv StockPredictiveModel.new
                 hist sent mkt).1,
             model_metadata := setEntry mgr.model_metadata symbol
               ⟨now, mets, fi⟩ } : ModelManager) symbol = some now := by
      intro _ _
      unfold lastTrainedOf
      rw [lookupEntry_setEntry_self]
      rfl
    dsimp only
    cases saveModel env mgr.model_dir symbol disk with
    | error e => exact key disk (.failure e)
    | ok disk1 =>
      dsimp only
      cases saveMetadata env mgr.model_dir symbol disk1 with
      | error e => exact key disk1 (.failure e)
      | ok disk2 => exact key disk2 (.success mets fi)

theorem qNorm_d_pos (q : Q) (h : 0 < q.d) : 0 < (qNorm q).d := by
  unfold qNorm
  rw [if_neg (Nat.pos_iff_ne_zero.mp h)]
  exact Nat.div_pos (Nat.le_of_dvd h (Nat.gcd_dvd_right _ _))
    (Nat.gcd_pos_of_pos_right _ h)

theorem qSub_d_pos (a b : Q) (ha : 0 < a.d) (hb : 0 < b.d) : 0 < (qSub a b).d :=
  qNorm_d_pos _ (Nat.mul_pos ha hb)

/-- A fraction at most the integer `z` floors to at most `z`. -/
theorem qFloor_le_of_le_int (q : Q) (z : Int) (hd : 0 < q.d)
    (h : qLe q (qOfInt z)) : qFloor q ≤ z := by
  unfold qLe qOfInt at h
  unfold qFloor
  have hd' : (0 : Int) < (q.d : Int) := by exact_mod_cast hd
  rw [Int.fdiv_eq_ediv _ (le_of_lt hd')]
  calc q.n / (q.d : Int) ≤ z * (q.d : Int) / (q.d : Int) :=
        Int.ediv_le_ediv hd' (by simpa using h)
    _ = z := Int.mul_ediv_cancel _ (ne_of_gt hd')

/-- C8.  The staleness policy of `retrain_if_needed`: (1) an absent metadata
entry triggers `train_model`; (2) a floored age strictly above `max_age_days`
triggers `train_model`; (3) otherwise the call is a no-op that changes
neither the manager nor the disk and merely reports the current age; and
(4) of two consecutive calls at instants at most `max_age_days` apart, at
most one changes the stored `last_trained` stamp. -/
theorem retrain_if_needed_policy
    (mgr : ModelManager) (env : IoEnv) (fitEnv : FitEnv) (disk : Disk)
    (symbol : String) (hist : DataFrame) (sent : List SentimentRecord)
    (mkt : MarketData) (maxAge : Int) :
    (∀ now, lookupEntry mgr.model_metadata symbol = none →
      mgr.retrain_if_needed env fitEnv now disk symbol hist sent mkt maxAge =
        ((mgr.train_model env fitEnv now disk symbol hist sent mkt).1,
         (mgr.train_model env fitEnv now disk symbol hist sent mkt).2.1,
         .fromTraining
           (mgr.train_model env fitEnv now disk symbol hist sent mkt).2.2)) ∧
    (∀ now md, lookupEntry mgr.model_metadata symbol = some md →
      maxAge < qFloor (qSub now md.last_trained) →
      mgr.retrain_if_needed env fitEnv now disk symbol hist sent mkt maxAge =
        ((mgr.train_model env fitEnv now disk symbol hist sent mkt).1,
         (mgr.train_model env fitEnv now disk symbol hist sent mkt).2.1,
         .fromTraining
           (mgr.train_model env fitEnv now disk symbol hist sent mkt).2.2)) ∧
    (∀ now md, lookupEntry mgr.model_metadata symbol = some md →
      ¬ maxAge < qFloor (qSub now md.last_trained) →
      mgr.retrain_if_needed env fitEnv now disk symbol hist sent mkt maxAge =
        (mgr, disk, .upToDate (qFloor (qSub now md.last_trained)))) ∧
    (∀ now1 now2, 0 < now1.d → 0 < now2.d →
      qLe (qSub now2 now1) (qOfInt maxAge) →
      lastTrainedOf
          (mgr.retrain_if_needed env fitEnv now1 disk symbol hist sent mkt
            maxAge).1 symbol ≠ lastTrainedOf mgr symbol →
      lastTrainedOf
          ((mgr.retrain_if_needed env fitEnv now1 disk symbol hist sent mkt
              maxAge).1.retrain_if_needed env fitEnv now2
            (mgr.retrain_if_needed env fitEnv now1 disk symbol hist sent mkt
              maxAge).2.1 symbol hist sent mkt maxAge).1 symbol =
        lastTrainedOf
          (mgr.retrain_if_needed env fitEnv now1 disk symbol hist sent mkt
            maxAge).1 symbol) := by
  refine ⟨?_, ?_, ?_, ?_⟩
  · intro now hnone
    unfold ModelManager.retrain_if_needed
    rw [hnone]
  · intro now md hsome hage
    unfold ModelManager.retrain_if_needed
    rw [hsome]
    dsimp only
    rw [if_pos hage]
  · intro now md hsome hage
    unfold ModelManager.retrain_if_needed
    rw [hsome]
    dsimp only
    rw [if_neg hage]
  · intro now1 now2 h1 h2 hle hchanged
    -- whatever the first call did, afterwards the stamp for `symbol` is
    -- `now1`: a no-op or an unchanged-metadata training branch would
    -- contradict `hchanged`.
    have hstamp : lastTrainedOf
        (mgr.retrain_if_needed env fitEnv now1 disk symbol hist sent mkt
          maxAge).1 symbol = some now1 := by
      unfold ModelManager.retrain_if_needed
      unfold ModelManager.retrain_if_needed at hchanged
      cases hmd : lookupEntry mgr.model_metadata symbol with
      | none =>
        rw [hmd] at hchanged
        dsimp only at hchanged ⊢
        rcases train_model_metadata_cases mgr env fitEnv now1 disk symbol
            hist sent mkt with hsame | hstamped
        · exact absurd (by unfold lastTrainedOf; rw [hsame]) hchanged
        · exact hstamped
      | some md =>
        rw [hmd] at hchanged
        dsimp only at hchanged ⊢
        by_cases hage : maxAge < qFloor (qSub now1 md.last_trained)
        · rw [if_pos hage] at hchanged ⊢
          rcases train_model_metadata_cases mgr env fitEnv now1 disk symbol
              hist sent mkt with hsame | hstamped
          · exact absurd (by unfold lastTrainedOf; rw [hsame]) hchanged
          · exact hstamped
        · rw [if_neg hage] at hchanged
          exact absurd rfl hchanged
    -- the second call therefore sees a fresh model and is a no-op.
    obtain ⟨md1, hmd1, hlast1⟩ := Option.map_eq_some'.mp hstamp
    conv_lhs => rw [ModelManager.retrain_if_needed]
    rw [hmd1]
    dsimp only
    have hfresh : ¬ maxAge < qFloor (qSub now2 md1.last_trained) := by
      rw [hlast1]
      exact not_lt.mpr
        (qFloor_le_of_le_int _ _ (qSub_d_pos now2 now1 h2 h1) hle)
    rw [if_neg hfresh]

/-- Witness for C8, exercising the no-op branch and the at-most-one-update
conclusion at a concrete manager whose model is three days old with a
seven-day budget. -/
theorem retrain_if_needed_policy_witness :
    (lookupEntry
        (ModelManager.mk "models" []
          [("AAPL", ⟨⟨0, 1⟩, [], []⟩)]).model_metadata "AAPL" =
      some ⟨⟨0, 1⟩, [], []⟩) ∧
    (¬ (7 : Int) < qFloor (qSub ⟨3, 1⟩ ⟨0, 1⟩)) ∧
    (ModelManager.mk "models" []
        [("AAPL", ⟨⟨0, 1⟩, [], []⟩)]).retrain_if_needed ioAllOk fitAllOk
        ⟨3, 1⟩ ⟨[]⟩ "AAPL" base52 sentTwo mktOne 7 =
      (ModelManager.mk "models" [] [("AAPL", ⟨⟨0, 1⟩, [], []⟩)], ⟨[]⟩,
       .upToDate (qFloor (qSub ⟨3, 1⟩ ⟨0, 1⟩))) :=
  ⟨rfl, by decide,
   (retrain_if_needed_policy
       (ModelManager.mk "models" [] [("AAPL", ⟨⟨0, 1⟩, [], []⟩)]) ioAllOk
       fitAllOk ⟨[]⟩ "AAPL" base52 sentTwo mktOne 7).2.2.1 ⟨3, 1⟩
     ⟨⟨0, 1⟩, [], []⟩ rfl (by decide)⟩

/-- `rolling(1).std()` under the pandas default `ddof = 1` is missing at
every position: a one-cell window never holds the two observations a sample
standard deviation needs. -/
theorem slideWin_one_std_none :
    ∀ (s : Series), ∀ c ∈ slideWin 1 qStdSample s, c = none := by
  intro s
  induction s with
  | nil => intro c hc; cases hc
  | cons x rest ih =>
    intro c hc
    simp only [slideWin] at hc
    rw [if_pos (Nat.le_add_left 1 rest.length)] at hc
    rcases List.mem_cons.mp hc with h | h
    · rw [h]
      cases x with
      | none => rfl
      | some q => rfl
    · exact ih c h

theorem rollingStd_one_eq (s : Series) :
    rollingStd 1 s = slideWin 1 qStdSample s := by
  unfold rollingStd rollingApply
  simp

/-- `shift(-k)` of an all-missing column is all-missing. -/
theorem shiftNeg_all_none (k : Nat) (s : Series) (h : ∀ c ∈ s, c = none) :
    ∀ c ∈ shiftNeg k s, c = none := by
  intro c hc
  unfold shiftNeg at hc
  rcases List.mem_append.mp hc with h1 | h1
  · exact h c (List.mem_of_mem_drop h1)
  · exact List.eq_of_mem_replicate h1

/-- The `risk_1d` column `create_targets` adds,
`returns.rolling(1).std().shift(-1)`, is all-missing whatever the input
series, so the closing `dropna()` of `create_targets` keeps no row of any
frame: every design matrix `train` hands to `_train_model` is empty. -/
theorem risk_one_column_all_none (returns : Series) :
    ∀ c ∈ shiftNeg 1 (rollingStd 1 returns), c = none := by
  refine shiftNeg_all_none 1 _ ?_
  intro c hc
  rw [rollingStd_one_eq] at hc
  exact slideWin_one_std_none returns c hc

/-- On the valid 52-row history the pipeline reaches the first horizon with
the empty post-`dropna` frame and the `TimeSeriesSplit` guard of
`_train_model` raises there, whatever the fitting oracle would have done:
the outcome and the model map left behind are oracle-independent. -/
theorem train_base52_guard (env : FitEnv) :
    (match StockPredictiveModel.train env StockPredictiveModel.new
        base52 sentTwo mktOne with
     | (m2, res) => (m2.models, res)) =
    (([] : List (String × Model)),
     TrainOutcome.failure
       "ValueError: Cannot have number of folds=6 greater than the number of samples=0.") := by
  rfl

/-- C1.  The claimed per-horizon failure isolation is unrealizable:
`create_targets` computes `risk_1d` as `returns.rolling(1).std().shift(-1)`,
the sample standard deviation of one-observation windows, so that column is
entirely missing and the closing `dropna()` empties the frame;
`TimeSeriesSplit(n_splits=5)` then raises on the 0-row design matrix at the
very first horizon.  On the valid 52-row history, for every fitting oracle,
`train` fails at `growth_1d` before any horizon can fit: no model is ever
stored, no per-horizon status map is ever built, and success is never
reported. -/
theorem train_never_fits_any_horizon (env : FitEnv) :
    (StockPredictiveModel.train env StockPredictiveModel.new base52 sentTwo
        mktOne).2 =
      TrainOutcome.failure
        "ValueError: Cannot have number of folds=6 greater than the number of samples=0."
    ∧ (StockPredictiveModel.train env StockPredictiveModel.new base52 sentTwo
        mktOne).1.models = [] := by
  have h := train_base52_guard env
  cases hres : StockPredictiveModel.train env StockPredictiveModel.new base52
      sentTwo mktOne with
  | mk m2 res =>
    rw [hres] at h
    dsimp only at h ⊢
    exact ⟨congrArg Prod.snd h, congrArg Prod.fst h⟩

/-- C7.  A "trained but not saved" state is unreachable, so the
distinguishable persistence failure the claim describes can never be
produced: the inner `StockPredictiveModel.train` never succeeds (the
all-missing `risk_1d` column empties the frame and the `TimeSeriesSplit`
guard raises at the first horizon), hence `_save_model` and `_save_metadata`
are dead code.  On the valid 52-row history, for every fitting oracle, every
disk oracle, every starting manager, every starting disk and every instant,
`train_model` returns the inner training error with both in-memory maps
untouched and nothing written to disk. -/
theorem train_model_never_reaches_persistence (fitEnv : FitEnv) (io : IoEnv)
    (mgr : ModelManager) (disk : Disk) (now : Q) :
    mgr.train_model io fitEnv now disk "AAPL" base52 sentTwo mktOne =
      (mgr, disk,
       TrainOutcome.failure
         "ValueError: Cannot have number of folds=6 greater than the number of samples=0.") := by
  have h := train_base52_guard fitEnv
  unfold ModelManager.train_model
  dsimp only
  cases hres : StockPredictiveModel.train fitEnv StockPredictiveModel.new
      base52 sentTwo mktOne with
  | mk m2 res =>
    rw [hres] at h
    dsimp only at h ⊢
    have hr : res = TrainOutcome.failure
        "ValueError: Cannot have number of folds=6 greater than the number of samples=0." :=
      congrArg Prod.snd h
    rw [hr]

/-- The engineer state left behind by a training call on the 52-row history
carrying one extra raw column (swept into the feature schema). -/
def trainedEngineerExtra : FeatureEngineer :=
  match FeatureEngineer.new.prepare_features base52extra sentTwo mktOne with
  | .ok (e, _, _) => e
  | .error _ => FeatureEngineer.new

/-- The fitted (mean, variance) the engineer's scaler stores for a column. -/
def scalerStatOf (e : FeatureEngineer) (c : String) : Option (Q × Q) :=
  match e.scaler with
  | some st => lookupEntry st c
  | none => none

/-- Every `.ok` exit of `prepare_features` stores the freshly computed
feature-column list as the engineer's recorded schema. -/
theorem prepare_features_ok_feature_columns
    (eng : FeatureEngineer) (hist : DataFrame) (sent : List SentimentRecord)
    (mkt : MarketData) (e2 : FeatureEngineer) (df : DataFrame)
    (fc : List String)
    (h : eng.prepare_features hist sent mkt = .ok (e2, df, fc)) :
    e2.feature_columns = fc := by
  unfold FeatureEngineer.prepare_features at h
  simp only [bind, Except.bind, pure, Except.pure] at h
  cases h1 : create_technical_features hist with
  | error e => rw [h1] at h; exact Except.noConfusion h
  | ok d1 =>
    rw [h1] at h; dsimp only at h
    cases h2 : create_price_features d1 with
    | error e => rw [h2] at h; exact Except.noConfusion h
    | ok d2 =>
      rw [h2] at h; dsimp only at h
      cases h3 : create_sentiment_features sent with
      | error e => rw [h3] at h; exact Except.noConfusion h
      | ok sf =>
        rw [h3] at h; dsimp only at h
        split at h
        · exact Except.noConfusion h
        · split at h
          · exact Except.noConfusion h
          · injection h with h1
            have hA := congrArg (fun t => t.1.feature_columns) h1
            have hB := congrArg (fun t => t.2.2) h1
            dsimp only at hA hB
            exact hA.symm.trans hB

/-- C2, amended.  `prepare_prediction_data` performs no check against the
schema recorded at training time: it reruns `prepare_features` on the
inference inputs, overwrites `self.feature_columns` with the freshly
recomputed schema, and returns the last row under that recomputed schema —
succeeding exactly when the rerun and the subsequent selection succeed, never
raising on a drifted schema. -/
theorem prepare_prediction_data_no_schema_check
    (eng : FeatureEngineer) (current : DataFrame) (sent : List SentimentRecord)
    (mkt : MarketData) :
    match eng.prepare_features current sent mkt with
    | .ok (eng2, df, fcols) =>
      (match df.select fcols with
       | .ok sub =>
         eng.prepare_prediction_data current sent mkt =
           .ok (eng2, sub.lastRow) ∧ eng2.feature_columns = fcols
       | .error e => eng.prepare_prediction_data current sent mkt = .error e)
    | .error e => eng.prepare_prediction_data current sent mkt = .error e := by
  cases hp : eng.prepare_features current sent mkt with
  | error e =>
    unfold FeatureEngineer.prepare_prediction_data
    simp only [bind, Except.bind, pure, Except.pure]
    rw [hp]
  | ok t =>
    obtain ⟨eng2, df, fcols⟩ := t
    have hfc := prepare_features_ok_feature_columns eng current sent mkt
      eng2 df fcols hp
    dsimp only
    cases hs : df.select fcols with
    | error e =>
      unfold FeatureEngineer.prepare_prediction_data
      simp only [bind, Except.bind, pure, Except.pure]
      rw [hp]
      dsimp only
      rw [hfc, hs]
    | ok sub =>
      refine ⟨?_, hfc⟩
      unfold FeatureEngineer.prepare_prediction_data
      simp only [bind, Except.bind, pure, Except.pure]
      rw [hp]
      dsimp only
      rw [hfc, hs]

/-- C2, counterexample.  Train on the history that carries the extra raw
column — the recorded schema contains `extra_feat` — then request a
prediction from a current frame without that column: no error is raised; the
call succeeds with a one-row frame whose recomputed schema (also overwritten
into the engineer) has silently lost the training column. -/
theorem prepare_prediction_data_counterexample_schema_drift :
    (trainedEngineerExtra.feature_columns.contains "extra_feat",
     (trainedEngineerExtra.prepare_prediction_data base52 sentTwo
         mktOne).toOption.map
       (fun pr => (pr.1.feature_columns.contains "extra_feat",
         pr.2.columns.contains "extra_feat", pr.2.height))) =
    (true, some (false, false, 1)) := by
  rfl

/-- C3, amended.  The inference path never reuses the fitted state: the
result of `prepare_prediction_data` (and of the `prepare_features` rerun it
makes, scaler refit included) is the same for every prior engineer state, so
the statistics standardising the inference row are the ones refit on the
inference input, never the stored training statistics. -/
theorem prepare_prediction_data_ignores_fitted_state
    (e1 e2 : FeatureEngineer) (current : DataFrame)
    (sent : List SentimentRecord) (mkt : MarketData) :
    e1.prepare_prediction_data current sent mkt =
      e2.prepare_prediction_data current sent mkt ∧
    e1.prepare_features current sent mkt =
      e2.prepare_features current sent mkt :=
  ⟨rfl, rfl⟩

/-- C3, counterexample.  At training time the scaler stored mean `1` (and
variance `0`) for the broadcast market-volatility feature; a prediction call
on the same engineer with a market snapshot whose volatility is `2` leaves
the scaler holding mean `2` afterwards: the inference row was standardised
with statistics refit on the inference input, not with the training
statistics. -/
theorem prepare_prediction_data_counterexample_refit :
    (scalerStatOf trainedEngineerExtra "market_market_volatility",
     (trainedEngineerExtra.prepare_prediction_data base52extra sentTwo
         mktTwo).toOption.map
       (fun pr => scalerStatOf pr.1 "market_market_volatility")) =
    (some (⟨1, 1⟩, ⟨0, 1⟩), some (some (⟨2, 1⟩, ⟨0, 1⟩))) := by
  rfl

/-! Lemmas for the missing-value claim: what a selection returns, what a
column write leaves readable, and what the scaler emits. -/

theorem selectAux_ok_props (df : DataFrame) :
    ∀ (names : List String) (cols : List (String × Series)),
      df.selectAux names = .ok cols →
      cols.map Prod.fst = names ∧ ∀ p ∈ cols, df.getCol p.1 = .ok p.2 := by
  intro names
  induction names with
  | nil =>
    intro cols h
    simp only [DataFrame.selectAux] at h
    injection h with h'
    subst h'
    exact ⟨rfl, fun p hp => absurd hp (List.not_mem_nil p)⟩
  | cons c rest ih =>
    intro cols h
    simp only [DataFrame.selectAux] at h
    cases hg : df.getCol c with
    | error e => rw [hg] at h; exact Except.noConfusion h
    | ok s =>
      rw [hg] at h
      dsimp only at h
      cases hr : df.selectAux rest with
      | error e => rw [hr] at h; exact Except.noConfusion h
      | ok r =>
        rw [hr] at h
        dsimp only at h
        injection h with h'
        subst h'
        obtain ⟨hn, hget⟩ := ih r hr
        refine ⟨by simp [hn], fun p hp => ?_⟩
        rcases List.mem_cons.mp hp with rfl | hmem
        · exact hg
        · exact hget p hmem

theorem select_ok_props (df : DataFrame) (names : List String) (sub : DataFrame)
    (h : df.select names = .ok sub) :
    sub.cols.map Prod.fst = names ∧ ∀ p ∈ sub.cols, df.getCol p.1 = .ok p.2 := by
  unfold DataFrame.select at h
  cases ha : df.selectAux names with
  | error e => rw [ha] at h; exact Except.noConfusion h
  | ok cols =>
    rw [ha] at h
    dsimp only at h
    injection h with h'
    subst h'
    exact selectAux_ok_props df names cols ha

theorem find?_pred {α : Type} (p : α → Bool) :
    ∀ (l : List α) (a : α), l.find? p = some a → p a = true := by
  intro l
  induction l with
  | nil => intro a h; simp at h
  | cons x xs ih =>
    intro a h
    simp only [List.find?] at h
    by_cases hx : p x = true
    · rw [hx] at h
      dsimp only at h
      injection h with h'
      rw [← h']
      exact hx
    · rw [Bool.eq_false_iff.mpr hx] at h
      dsimp only at h
      exact ih a h

theorem find?_map_setCol (L : List (String × Series)) (n c : String) (v : Series)
    (r : String × Series)
    (h : (L.map (fun q => if q.1 == n then (n, v) else q)).find?
        (fun q => q.1 == c) = some r) :
    r.2 = v ∨ (L.find? (fun q => q.1 == c) = some r ∧ (c == n) = false) := by
  induction L with
  | nil => simp at h
  | cons q L ih =>
    rw [List.map_cons] at h
    by_cases hq : (q.1 == n) = true
    · rw [if_pos hq] at h
      simp only [List.find?] at h ⊢
      by_cases hc : (n == c) = true
      · rw [hc] at h
        dsimp only at h
        injection h with h'
        exact Or.inl (congrArg Prod.snd h'.symm)
      · have hc' : (n == c) = false := Bool.eq_false_iff.mpr hc
        rw [hc'] at h
        dsimp only at h
        have hqc : (q.1 == c) = false := by rw [eq_of_beq hq]; exact hc'
        rw [hqc]
        dsimp only
        rcases ih h with h1 | ⟨h2, h3⟩
        · exact Or.inl h1
        · exact Or.inr ⟨h2, h3⟩
    · have hq' : (q.1 == n) = false := Bool.eq_false_iff.mpr hq
      rw [if_neg hq] at h
      simp only [List.find?] at h ⊢
      by_cases hc2 : (q.1 == c) = true
      · rw [hc2] at h ⊢
        dsimp only at h ⊢
        injection h with h'
        refine Or.inr ⟨congrArg some h', ?_⟩
        rw [← eq_of_beq hc2]
        exact hq'
      · have hc2' : (q.1 == c) = false := Bool.eq_false_iff.mpr hc2
        rw [hc2'] at h ⊢
        dsimp only at h ⊢
        rcases ih h with h1 | ⟨h2, h3⟩
        · exact Or.inl h1
        · exact Or.inr ⟨h2, h3⟩

theorem getCol_setCol (df : DataFrame) (n : String) (v : Series) (c : String)
    (s : Series) (h : (df.setCol n v).getCol c = .ok s) :
    s = v ∨ (df.getCol c = .ok s ∧ (c == n) = false) := by
  unfold DataFrame.setCol at h
  by_cases hany : (df.cols.any (fun p => p.1 == n)) = true
  · rw [if_pos hany] at h
    unfold DataFrame.getCol at h ⊢
    cases hr : List.find? (fun p => p.1 == c)
        (df.cols.map (fun p => if p.1 == n then (n, v) else p)) with
    | none => rw [hr] at h; exact Except.noConfusion h
    | some r =>
      rw [hr] at h
      dsimp only at h
      injection h with h'
      rcases find?_map_setCol df.cols n c v r hr with h1 | ⟨h2, h3⟩
      · exact Or.inl (h'.symm.trans h1)
      · refine Or.inr ⟨?_, h3⟩
        rw [h2]
        exact congrArg Except.ok h'
  · rw [if_neg hany] at h
    unfold DataFrame.getCol at h ⊢
    cases hr : List.find? (fun p => p.1 == c) df.cols with
    | some r =>
      have hr2 : List.find? (fun p => p.1 == c) (df.cols ++ [(n, v)]) = some r := by
        rw [List.find?_append, hr]
        rfl
      rw [hr2] at h
      dsimp only at h
      injection h with h'
      refine Or.inr ⟨by dsimp only; exact congrArg Except.ok h', ?_⟩
      have hpr := find?_pred (fun p : String × Series => p.1 == c) df.cols r hr
      have hrc : r.1 = c := eq_of_beq (by simpa using hpr)
      have hall := Bool.eq_false_iff.mpr hany
      rw [List.any_eq_false] at hall
      have hrn : (r.1 == n) = false :=
        Bool.eq_false_iff.mpr (hall r (List.mem_of_find?_eq_some hr))
      rw [← hrc]
      exact hrn
    | none =>
      have hr2 : List.find? (fun p => p.1 == c) (df.cols ++ [(n, v)]) =
          List.find? (fun p => p.1 == c) [(n, v)] := by
        rw [List.find?_append, hr]
        rfl
      rw [hr2] at h
      simp only [List.find?] at h
      by_cases hnc : (n == c) = true
      · rw [hnc] at h
        dsimp only at h
        injection h with h'
        exact Or.inl h'.symm
      · have hnc' : (n == c) = false := Bool.eq_false_iff.mpr hnc
        rw [hnc'] at h
        dsimp only at h
        exact Except.noConfusion h

theorem getCol_foldl_setCol_mem (pairs : List (String × Series)) (df : DataFrame)
    (c : String) (s : Series)
    (h : (pairs.foldl (fun d p => d.setCol p.1 p.2) df).getCol c = .ok s) :
    s ∈ pairs.map Prod.snd ∨
      (df.getCol c = .ok s ∧ ∀ p ∈ pairs, (c == p.1) = false) := by
  induction pairs generalizing df with
  | nil => exact Or.inr ⟨h, fun p hp => absurd hp (List.not_mem_nil p)⟩
  | cons q rest ih =>
    rw [List.foldl_cons] at h
    rcases ih (df.setCol q.1 q.2) h with h1 | ⟨h2, h3⟩
    · rw [List.map_cons]
      exact Or.inl (List.mem_cons_of_mem _ h1)
    · rcases getCol_setCol df q.1 q.2 c s h2 with hv | ⟨h4, h5⟩
      · rw [List.map_cons, hv]
        exact Or.inl (List.mem_cons_self _ _)
      · refine Or.inr ⟨h4, fun p hp => ?_⟩
        rcases List.mem_cons.mp hp with rfl | hmem
        · exact h5
        · exact h3 p hmem

theorem series_map_all_isSome (f : Q → Q) (s : Series)
    (h : s.any (fun c => c.isNone) = false) :
    (s.map (cellMap f)).all Option.isSome = true := by
  induction s with
  | nil => rfl
  | cons c rest ih =>
    rw [List.any_cons, Bool.or_eq_false_iff] at h
    rw [List.map_cons, List.all_cons]
    cases hc : c with
    | none => rw [hc] at h; simp at h
    | some x => exact (by rw [Bool.and_eq_true]; exact ⟨rfl, ih h.2⟩)

theorem standardFitTransform_ok_shape (d : DataFrame) (st : ScalerStats)
    (sc : DataFrame) (h : standardFitTransform d = .ok (st, sc)) :
    sc.cols.map Prod.fst = d.cols.map Prod.fst ∧
      ∀ s ∈ sc.cols.map Prod.snd, s.all Option.isSome = true := by
  unfold standardFitTransform at h
  by_cases hm : d.hasMissing = true
  · rw [if_pos hm] at h
    exact Except.noConfusion h
  · rw [if_neg hm] at h
    dsimp only at h
    injection h with h'
    have hsc := congrArg Prod.snd h'
    dsimp only at hsc
    rw [← hsc]
    constructor
    · simp
    · intro s hs
      simp only [List.map_map] at hs
      obtain ⟨p, hp, hps⟩ := List.mem_map.mp hs
      have hpnone : p.2.any (fun cell => cell.isNone) = false := by
        have hall := Bool.eq_false_iff.mpr hm
        unfold DataFrame.hasMissing at hall
        rw [List.any_eq_false] at hall
        exact Bool.eq_false_iff.mpr (hall p hp)
      rw [← hps]
      exact series_map_all_isSome _ _ hpnone

theorem hasMissing_false_of_all (sub : DataFrame)
    (h : ∀ s ∈ sub.cols.map Prod.snd, s.all Option.isSome = true) :
    sub.hasMissing = false := by
  unfold DataFrame.hasMissing
  rw [List.any_eq_false]
  intro p hp
  have hall := h p.2 (List.mem_map_of_mem Prod.snd hp)
  rw [List.all_eq_true] at hall
  simp only [Bool.not_eq_true]
  rw [List.any_eq_false]
  intro c hc
  have hcs := hall c hc
  cases c with
  | none => exact absurd hcs (by simp)
  | some x => simp

/-- Whenever `prepare_features` succeeds, selecting the returned feature
columns from the returned frame yields a matrix with zero missing values:
the scaler's input check has already rejected any missing cell, and the
written-back columns are exactly the transformed ones. -/
theorem prepare_features_ok_matrix_complete
    (eng : FeatureEngineer) (hist : DataFrame) (sent : List SentimentRecord)
    (mkt : MarketData) (e2 : FeatureEngineer) (df : DataFrame)
    (fc : List String) (sub : DataFrame)
    (hp : eng.prepare_features hist sent mkt = .ok (e2, df, fc))
    (hs : df.select fc = .ok sub) :
    sub.hasMissing = false := by
  unfold FeatureEngineer.prepare_features at hp
  simp only [bind, Except.bind, pure, Except.pure] at hp
  cases h1 : create_technical_features hist with
  | error e => rw [h1] at hp; exact Except.noConfusion hp
  | ok d1 =>
    rw [h1] at hp
    dsimp only at hp
    cases h2 : create_price_features d1 with
    | error e => rw [h2] at hp; exact Except.noConfusion hp
    | ok d2 =>
      rw [h2] at hp
      dsimp only at hp
      cases h3 : create_sentiment_features sent with
      | error e => rw [h3] at hp; exact Except.noConfusion hp
      | ok sf =>
        rw [h3] at hp
        dsimp only at hp
        split at hp
        · exact Except.noConfusion hp
        · rename_i sub0 hsel
          split at hp
          · exact Except.noConfusion hp
          · rename_i v hft
            obtain ⟨stats, scaled⟩ := v
            dsimp only at hp
            injection hp with htriple
            have hdf := congrArg (fun t => t.2.1) htriple
            have hfc := congrArg (fun t => t.2.2) htriple
            dsimp only at hdf hfc
            obtain ⟨hsubnames, hsubget⟩ := select_ok_props df fc sub hs
            apply hasMissing_false_of_all
            intro s hsmem
            obtain ⟨p, hpmem, hps⟩ := List.mem_map.mp hsmem
            have hget := hsubget p hpmem
            rw [← hdf] at hget
            obtain ⟨hnames, hcomplete⟩ :=
              standardFitTransform_ok_shape sub0 stats scaled hft
            rcases getCol_foldl_setCol_mem scaled.cols _ p.1 p.2 hget with
              hin | ⟨horig, hnone⟩
            · rw [← hps]
              exact hcomplete p.2 hin
            · exfalso
              have hp1 : p.1 ∈ fc := by
                rw [← hsubnames]
                exact List.mem_map_of_mem Prod.fst hpmem
              obtain ⟨hsub0names, -⟩ := select_ok_props _ _ sub0 hsel
              have hp1' : p.1 ∈ scaled.cols.map Prod.fst := by
                rw [hnames, hsub0names, hfc]
                exact hp1
              obtain ⟨q, hq, hq1⟩ := List.mem_map.mp hp1'
              have hcontra := hnone q hq
              rw [hq1] at hcontra
              exact absurd hcontra (by simp)

/-- C9, amended.  `prepare_features` is deterministic — the result, schema
included, depends only on the inputs (not even on the engineer's prior
state) — and whenever it succeeds, the returned feature matrix (the feature
columns of the returned frame) contains zero missing values.  Success is not
guaranteed by the row count alone: a single sentiment record already makes
the call raise (see the counterexample). -/
theorem prepare_features_deterministic_and_complete
    (e1 e2 : FeatureEngineer) (hist : DataFrame) (sent : List SentimentRecord)
    (mkt : MarketData) :
    e1.prepare_features hist sent mkt = e2.prepare_features hist sent mkt ∧
    (match e1.prepare_features hist sent mkt with
     | .ok (_, df, fcols) =>
       (match df.select fcols with
        | .ok sub => sub.hasMissing = false
        | .error _ => True)
     | .error _ => True) := by
  refine ⟨rfl, ?_⟩
  cases hp : e1.prepare_features hist sent mkt with
  | error e => exact trivial
  | ok t =>
    obtain ⟨eng', df, fcols⟩ := t
    dsimp only
    cases hs : df.select fcols with
    | error e => exact trivial
    | ok sub =>
      exact prepare_features_ok_matrix_complete e1 hist sent mkt eng' df
        fcols sub hp hs

/-- C9, counterexample.  The 70-row history meets the claimed row bound
(70 = largest horizon 20 + largest rolling window 50) and carries no missing
value, yet with a single sentiment record `prepare_features` does not return
a missing-value-free matrix — it raises: the one-record sentiment block has
undefined volatility and momentum, the broadcast columns stay entirely
missing through ffill/bfill, and the scaler's input check rejects them. -/
theorem prepare_features_counterexample_single_record :
    (base70.height, base70.hasMissing,
     FeatureEngineer.new.prepare_features base70 sentOne mktOne) =
    (20 + 50, false,
     .error "ValueError: Input contains NaN") := by
  rfl
